import Mathlib

/-!
# Verification of the GreenPiThumb polling/scheduling core

Shallow embedding of `greenpithumb/poller.py`, `greenpithumb/db_store.py`
and `greenpithumb/humidity_sensor.py`, together with proofs about the
claims of the specification.

The embedding follows the source:

* `SensorPollerBase._poll` (poller.py lines 54-61) is a sequential loop

    while not self._closed.is_set():
        self._poll_once()
        self._local_clock.wait(self._poll_interval)
    self._close_db_stores()

  running in its own thread, with `close()` setting the `threading.Event`
  flag from another thread.  We model it as a state machine
  (`LoopState`/`PollAction`): the loop thread advances with `PollAction.tick`,
  an exception raised by `_poll_once` is `PollAction.raiseErr`, and a
  concurrent `close()` call is `PollAction.close`.  Interleavings are
  arbitrary lists of actions (`run`).
* Record stores (`db_store.py`) are append-only row lists; a row is the
  serialized timestamp (byte values of the ISO-8601 text produced by
  `_serialize_timestamp`, i.e. `datetime.isoformat('T')`) together with
  the stored value.
* `HumiditySensor.get_humidity_level` is a total function from the DHT11
  driver result to `Except`.
-/

/-! ## The scheduling loop of `SensorPollerBase._poll` -/

/-- Control position of the `_poll` thread.

* `checkFlag`: at the top of the `while`, about to evaluate
  `self._closed.is_set()`.
* `pollOnce`: inside the call `self._poll_once()`.
* `waiting`: inside the call `self._local_clock.wait(self._poll_interval)`.
* `cleanup`: inside `self._close_db_stores()` (reached when the `while`
  condition became false).
* `halted`: `_poll` returned normally.
* `crashed`: an exception escaped `_poll_once`; since `_poll` has no
  `try`/`except`, the exception propagates out of `_poll` and the thread
  dies without reaching `_close_db_stores`. -/
inductive Phase where
  | checkFlag
  | pollOnce
  | waiting
  | cleanup
  | halted
  | crashed
deriving DecidableEq, Repr

/-- State of one poller's `_poll` loop.

* `closed` is the `threading.Event` `self._closed`.
* `interval` is `self._poll_interval`, fixed at construction.
* `iterations` counts completed `_poll_once` calls.
* `waitCalls` records, in order, the argument of each
  `self._local_clock.wait(...)` call made by the loop.
* `cleanups` counts calls of `self._close_db_stores()`. -/
structure LoopState where
  phase : Phase
  closed : Bool
  interval : Nat
  iterations : Nat
  waitCalls : List Nat
  cleanups : Nat
deriving DecidableEq, Repr

/-- The events that can happen to a running poller: `tick` is the loop
thread taking its next sequential step, `raiseErr` is `_poll_once`
raising (e.g. a `SensorReadError` or `StorageError`), and `close` is a
concurrent `close()` call, which only sets the `threading.Event`. -/
inductive PollAction where
  | tick
  | raiseErr
  | close
deriving DecidableEq, Repr

/-- One step of the interleaved system, following `_poll` line by line:
the flag is tested only at the top of the `while`; after `_poll_once`
returns, the loop always calls `wait(self._poll_interval)` before
re-testing the flag; once the test sees the flag set, the loop runs
`_close_db_stores()` and returns.  `close()` only sets the flag and
never touches the loop thread's position. -/
def applyAction (s : LoopState) : PollAction → LoopState
  | .close => { s with closed := true }
  | .raiseErr =>
      if s.phase = .pollOnce then { s with phase := .crashed } else s
  | .tick =>
      match s.phase with
      | .checkFlag =>
          if s.closed then
            { s with phase := .cleanup, cleanups := s.cleanups + 1 }
          else
            { s with phase := .pollOnce }
      | .pollOnce =>
          { s with
              phase := .waiting
              iterations := s.iterations + 1
              waitCalls := s.waitCalls ++ [s.interval] }
      | .waiting => { s with phase := .checkFlag }
      | .cleanup => { s with phase := .halted }
      | .halted => s
      | .crashed => s

/-- Run a sequence of interleaved events. -/
def run (s : LoopState) (acts : List PollAction) : LoopState :=
  acts.foldl applyAction s

/-- State of a freshly started poller with poll interval `d`
(`start_polling_async` entered `_poll`, about to test the flag). -/
def initState (d : Nat) : LoopState :=
  { phase := .checkFlag
    closed := false
    interval := d
    iterations := 0
    waitCalls := []
    cleanups := 0 }

/-! ## Timestamps and their ISO-8601 serialization (`db_store.py`)

`_serialize_timestamp` returns `timestamp.isoformat('T')`.  For a
timezone-aware Python `datetime` whose `utcoffset()` is a whole number
of minutes (the only kind the application produces) this is the text

    YYYY-MM-DDTHH:MM:SS[.ffffff]±HH:MM

where the `.ffffff` part is omitted exactly when `microsecond == 0`.
We model the text as its list of byte values (`List Nat`), since both
Python `str` comparison and SQLite's default BINARY collation on TEXT
order strings bytewise. -/

/-- A timezone-aware Python `datetime`.  `offsetMinutes` is
`utcoffset()` in minutes (may be negative). -/
structure Timestamp where
  year : Nat
  month : Nat
  day : Nat
  hour : Nat
  minute : Nat
  second : Nat
  microsecond : Nat
  offsetMinutes : Int
deriving DecidableEq, Repr

/-- Gregorian leap-year rule used by Python's `datetime`. -/
def isLeapYear (y : Nat) : Bool :=
  (y % 4 == 0 && y % 100 != 0) || y % 400 == 0

/-- Length of month `m` (1-12) of year `y`, as `datetime` validates it. -/
def daysInMonth (y m : Nat) : Nat :=
  match m with
  | 1 => 31
  | 2 => if isLeapYear y then 29 else 28
  | 3 => 31
  | 4 => 30
  | 5 => 31
  | 6 => 30
  | 7 => 31
  | 8 => 31
  | 9 => 30
  | 10 => 31
  | 11 => 30
  | 12 => 31
  | _ => 0

/-- The field ranges a Python `datetime` can actually hold (`MINYEAR = 1`,
`MAXYEAR = 9999`, offsets strictly between -24h and +24h). -/
def ValidTimestamp (t : Timestamp) : Prop :=
  1 ≤ t.year ∧ t.year ≤ 9999 ∧
  1 ≤ t.month ∧ t.month ≤ 12 ∧
  1 ≤ t.day ∧ t.day ≤ daysInMonth t.year t.month ∧
  t.hour ≤ 23 ∧ t.minute ≤ 59 ∧ t.second ≤ 59 ∧
  t.microsecond ≤ 999999 ∧
  -1439 ≤ t.offsetMinutes ∧ t.offsetMinutes ≤ 1439

instance (t : Timestamp) : Decidable (ValidTimestamp t) := by
  unfold ValidTimestamp; infer_instance

/-- Days in the years before year `y`: `date(y, 1, 1).toordinal() - 1`. -/
def daysBeforeYear (y : Nat) : Nat :=
  365 * (y - 1) + (y - 1) / 4 - (y - 1) / 100 + (y - 1) / 400

/-- Days in year `y` before month `m` (1-12). -/
def daysBeforeMonth (y m : Nat) : Nat :=
  (match m with
   | 1 => 0 | 2 => 31 | 3 => 59 | 4 => 90 | 5 => 120 | 6 => 151
   | 7 => 181 | 8 => 212 | 9 => 243 | 10 => 273 | 11 => 304 | 12 => 334
   | _ => 0) +
  (if 3 ≤ m ∧ isLeapYear y then 1 else 0)

/-- Python's `date(y, m, d).toordinal()`. -/
def dayNumber (y m d : Nat) : Nat :=
  daysBeforeYear y + daysBeforeMonth y m + d

/-- The instant a timezone-aware `datetime` denotes, in microseconds
(subtracting the UTC offset), the order Python uses to compare aware
datetimes.  This is the chronological order on instants. -/
def toEpochMicro (t : Timestamp) : Int :=
  ((((dayNumber t.year t.month t.day : Int) * 24 + t.hour) * 60 + t.minute)
      * 60 + t.second) * 1000000 + t.microsecond
    - t.offsetMinutes * 60 * 1000000

/-- Lexicographic order on the timestamp fields
(year, month, day, hour, minute, second, microsecond).  For timestamps
with equal UTC offsets this is the chronological order. -/
def keyLt (t1 t2 : Timestamp) : Prop :=
  t1.year < t2.year ∨ (t1.year = t2.year ∧
    (t1.month < t2.month ∨ (t1.month = t2.month ∧
      (t1.day < t2.day ∨ (t1.day = t2.day ∧
        (t1.hour < t2.hour ∨ (t1.hour = t2.hour ∧
          (t1.minute < t2.minute ∨ (t1.minute = t2.minute ∧
            (t1.second < t2.second ∨ (t1.second = t2.second ∧
              t1.microsecond < t2.microsecond)))))))))))

/-- Printing with `"%02d"`: the two digit bytes of `n < 100`. -/
def pad2 (n : Nat) : List Nat :=
  [48 + n / 10, 48 + n % 10]

/-- Printing with `"%04d"`: the four digit bytes of `n < 10000`. -/
def pad4 (n : Nat) : List Nat :=
  [48 + n / 1000, 48 + n / 100 % 10, 48 + n / 10 % 10, 48 + n % 10]

/-- Printing with `"%06d"`: the six digit bytes of `n < 1000000`. -/
def pad6 (n : Nat) : List Nat :=
  [48 + n / 100000, 48 + n / 10000 % 10, 48 + n / 1000 % 10,
   48 + n / 100 % 10, 48 + n / 10 % 10, 48 + n % 10]

/-- The `±HH:MM` suffix `isoformat` prints for a whole-minute UTC
offset: `43`/`45` are the bytes of `+`/`-`, `58` is `:`. -/
def offsetBytes (off : Int) : List Nat :=
  (if off < 0 then [45] else [43]) ++
    (pad2 (off.natAbs / 60) ++ ([58] ++ pad2 (off.natAbs % 60)))

/-- The `.ffffff` part, omitted by `isoformat` when `microsecond == 0`;
`46` is the byte of `.`. -/
def fracBytes (us : Nat) : List Nat :=
  if us = 0 then [] else 46 :: pad6 us

/-- Model of `db_store._serialize_timestamp`, i.e. `timestamp.isoformat('T')`,
as the byte values of the produced text (`45` is `-`, `84` is `T`,
`58` is `:`). -/
def serialize_timestamp (t : Timestamp) : List Nat :=
  pad4 t.year ++ ([45] ++ (pad2 t.month ++ ([45] ++ (pad2 t.day ++
    ([84] ++ (pad2 t.hour ++ ([58] ++ (pad2 t.minute ++ ([58] ++
      (pad2 t.second ++ (fracBytes t.microsecond ++
        offsetBytes t.offsetMinutes)))))))))))

/-- Strict lexicographic (bytewise) order on serialized text, i.e.
Python `str.__lt__` / SQLite BINARY collation. -/
def lexLt : List Nat → List Nat → Bool
  | [], [] => false
  | [], _ :: _ => true
  | _ :: _, [] => false
  | a :: as, b :: bs =>
      if a < b then true else if a = b then lexLt as bs else false

/-- Decode two digit bytes. -/
def dec2 (a b : Nat) : Nat := (a - 48) * 10 + (b - 48)

/-- Decode four digit bytes. -/
def dec4 (a b c d : Nat) : Nat :=
  ((a - 48) * 10 + (b - 48)) * 100 + ((c - 48) * 10 + (d - 48))

/-- Decode six digit bytes. -/
def dec6 (a b c d e f : Nat) : Nat :=
  (((a - 48) * 10 + (b - 48)) * 100 + ((c - 48) * 10 + (d - 48))) * 100 +
    ((e - 48) * 10 + (f - 48))

/-- Decode a `±HH:MM` offset suffix. -/
def decodeOffset (bs : List Nat) : Option Int :=
  match bs with
  | [sign, o1, o2, col, o3, o4] =>
      if col = 58 then
        if sign = 43 then some ((dec2 o1 o2 * 60 + dec2 o3 o4 : Nat) : Int)
        else if sign = 45 then
          some (-((dec2 o1 o2 * 60 + dec2 o3 o4 : Nat) : Int))
        else none
      else none
  | _ => none

/-- Decode the optional `.ffffff` fraction followed by the offset. -/
def decodeTail (bs : List Nat) : Option (Nat × Int) :=
  match bs with
  | [] => none
  | b :: rest =>
      if b = 46 then
        match rest with
        | u1 :: u2 :: u3 :: u4 :: u5 :: u6 :: offBs =>
            (decodeOffset offBs).map (fun o => (dec6 u1 u2 u3 u4 u5 u6, o))
        | _ => none
      else (decodeOffset bs).map (fun o => (0, o))

/-- Model of `dateutil.parser.parse` restricted to the texts the program itself
writes (the fixed-position ISO-8601 form produced by
`_serialize_timestamp`); `db_store._do_get` applies it to every stored
timestamp to recover the `datetime`. -/
def decode_timestamp (bs : List Nat) : Option Timestamp :=
  match bs with
  | y1 :: y2 :: y3 :: y4 :: s1 :: m1 :: m2 :: s2 :: d1 :: d2 :: s3 ::
      h1 :: h2 :: s4 :: i1 :: i2 :: s5 :: sec1 :: sec2 :: rest =>
      if s1 = 45 ∧ s2 = 45 ∧ s3 = 84 ∧ s4 = 58 ∧ s5 = 58 then
        (decodeTail rest).map (fun p =>
          { year := dec4 y1 y2 y3 y4
            month := dec2 m1 m2
            day := dec2 d1 d2
            hour := dec2 h1 h2
            minute := dec2 i1 i2
            second := dec2 sec1 sec2
            microsecond := p.1
            offsetMinutes := p.2 })
      else none
  | _ => none

/-! ## Record stores (`db_store.py`)

A store table is an append-only list of rows `(timestamp text, value)`;
`_DbStoreBase._do_insert` executes a single auto-committed `INSERT`,
which appends one row holding the serialized timestamp, and `_do_get`
selects all rows in insertion order and parses each timestamp back.
All five store classes instantiate this scheme, differing only in
table/field names, so the table is parameterized by the value type. -/

/-- A stored table: rows in insertion order, each holding the
serialized timestamp text and the value column. -/
abbrev DbTable (α : Type) : Type := List (List Nat × α)

/-- Model of `_DbStoreBase._do_insert`: append one row with the serialized
timestamp. -/
def db_insert (tbl : DbTable α) (t : Timestamp) (v : α) : DbTable α :=
  tbl ++ [(serialize_timestamp t, v)]

/-- Model of `_DbStoreBase._do_get`: all rows in insertion order, timestamps
parsed back to instants. -/
def db_get (tbl : DbTable α) : List (Option Timestamp × α) :=
  tbl.map (fun r => (decode_timestamp r.1, r.2))

/-- The `db_store.SoilMoistureRecord` namedtuple. -/
structure SoilMoistureRecord (α : Type) where
  timestamp : Timestamp
  soil_moisture : α
deriving DecidableEq, Repr

/-- The `db_store.TemperatureRecord` namedtuple. -/
structure TemperatureRecord (α : Type) where
  timestamp : Timestamp
  temperature : α
deriving DecidableEq, Repr

/-- The `db_store.WateringEventRecord` namedtuple. -/
structure WateringEventRecord (α : Type) where
  timestamp : Timestamp
  water_pumped : α
deriving DecidableEq, Repr

/-- Model of `SoilMoistureStore.insert`: one auto-committed `INSERT INTO
soil_moisture VALUES (?, ?)` with the serialized timestamp and the
moisture value. -/
def SoilMoistureStore.insert (tbl : DbTable α) (r : SoilMoistureRecord α) :
    DbTable α :=
  db_insert tbl r.timestamp r.soil_moisture

/-- Model of `SoilMoistureStore.get`: `SELECT * FROM soil_moisture` decoded to
records. -/
def SoilMoistureStore.get (tbl : DbTable α) : List (Option Timestamp × α) :=
  db_get tbl

/-- Modelled from the spec: `SoilMoistureStore.get_latest` is not in
`src/greenpithumb/db_store.py` (only its caller
`WateringEventPoller._poll_once` is in src).  Spec 4.2: "`get_latest()`
(soil moisture only): returns the most recently inserted record, or an
explicit none if the store is empty."  On the append-only table the
most recently inserted row is the last row. -/
def SoilMoistureStore.get_latest (tbl : DbTable α) :
    Option (Option Timestamp × α) :=
  tbl.getLast?.map (fun r => (decode_timestamp r.1, r.2))

/-! ## Iteration bodies of the specialized pollers (`poller.py`) -/

/-- A store operation performed by `TemperaturePoller._poll_once`. -/
inductive TempStoreOp (α : Type) where
  | insert (r : TemperatureRecord α)
deriving DecidableEq, Repr

/-- Model of `TemperaturePoller._poll_once`: read the sensor, then insert
`TemperatureRecord(now, temperature)`.  The sensor reading and the
clock instant are the inputs; the result is the exact sequence of store
operations the body performs. -/
def TemperaturePoller.poll_once (temperature : α) (now : Timestamp) :
    List (TempStoreOp α) :=
  [TempStoreOp.insert { timestamp := now, temperature := temperature }]

/-- A Python runtime error surfaced by an iteration body. -/
inductive PyError where
  | attributeError (missing : String)
deriving DecidableEq, Repr

/-- A collaborator call made by `WateringEventPoller._poll_once`. -/
inductive WateringCall (α : Type) where
  | pump_if_needed (sample : SoilMoistureRecord α)
  | insert (r : WateringEventRecord ℚ)
deriving DecidableEq, Repr

/-- The instance attributes `WateringEventPoller.__init__` assigns
(including those of `SensorPollerBase.__init__`).  Python resolves
`self.name` against exactly these; any other name raises
`AttributeError`. -/
def wateringEventPollerAttributes : List String :=
  ["_local_clock", "_poll_interval", "_closed",
   "_pump_manager", "_soil_moisture_store", "_watering_event_store"]

/-- Model of `WateringEventPoller._poll_once`:

    soil_moisture = self._soil_moisture_store.get_latest()
    if soil_moisture:
        ml_pumped = self._pump_manager.pump_if_needed(soil_moisture)
        if ml_pumped > 0:
            self.watering_event_store.insert(
                db_store.WateringEventRecord(self._local_clock.now(),
                                             ml_pumped))

Inputs: the value `get_latest()` returned (a namedtuple is always
truthy, so `if soil_moisture:` is a none-test), the pump collaborator,
and the clock instant.  Output: the calls performed, and the error, if
any, the body raises.  The insert line reads `self.watering_event_store`,
which is resolved against the attributes set in `__init__`. -/
def WateringEventPoller.poll_once (latest : Option (SoilMoistureRecord α))
    (pump_if_needed : SoilMoistureRecord α → ℚ) (now : Timestamp) :
    List (WateringCall α) × Option PyError :=
  match latest with
  | none => ([], none)
  | some sm =>
      let ml_pumped := pump_if_needed sm
      if ml_pumped > 0 then
        if wateringEventPollerAttributes.contains "watering_event_store" then
          ([WateringCall.pump_if_needed sm,
            WateringCall.insert { timestamp := now, water_pumped := ml_pumped }],
           none)
        else
          ([WateringCall.pump_if_needed sm],
           some (PyError.attributeError "watering_event_store"))
      else ([WateringCall.pump_if_needed sm], none)

/-! ## `HumiditySensor.get_humidity_level` (`humidity_sensor.py`) -/

/-- The result object returned by the DHT11 driver's `read()`. -/
structure Dht11Result (α : Type) where
  error_code : Int
  humidity : α
deriving DecidableEq, Repr

/-- The exceptions `get_humidity_level` can raise
(`dht11_exceptions.MissingDataError`, `.IncorrectCRCError`, and
`ValueError` carrying the out-of-range code). -/
inductive HumidityReadError where
  | missingDataError
  | incorrectCRCError
  | valueError (code : Int)
deriving DecidableEq, Repr

/-- Model of `HumiditySensor.get_humidity_level`: dispatch on the driver's
`error_code`, returning the humidity only on code 0. -/
def HumiditySensor.get_humidity_level (r : Dht11Result α) :
    Except HumidityReadError α :=
  if r.error_code ≠ 0 then
    if r.error_code = 1 then Except.error HumidityReadError.missingDataError
    else if r.error_code = 2 then
      Except.error HumidityReadError.incorrectCRCError
    else Except.error (HumidityReadError.valueError r.error_code)
  else Except.ok r.humidity

/-! ## Lemmas about the scheduling loop -/

theorem run_nil (s : LoopState) : run s [] = s := rfl

theorem run_cons (s : LoopState) (a : PollAction) (acts : List PollAction) :
    run s (a :: acts) = run (applyAction s a) acts := rfl

/-- A crashed loop is stuck: no action revives it or changes its
counters (only the `closed` flag can still be flipped by `close()`). -/
theorem crashed_absorbing (s : LoopState) (acts : List PollAction)
    (h : s.phase = .crashed) :
    (run s acts).phase = .crashed ∧
    (run s acts).iterations = s.iterations ∧
    (run s acts).waitCalls = s.waitCalls ∧
    (run s acts).cleanups = s.cleanups := by
  induction acts generalizing s with
  | nil => exact ⟨h, rfl, rfl, rfl⟩
  | cons a acts ih =>
      rw [run_cons]
      cases a with
      | close => exact ih { s with closed := true } h
      | raiseErr =>
          simp only [applyAction, h]
          exact ih s h
      | tick =>
          simp only [applyAction, h]
          exact ih s h

/-- Once the loop has observed the stop flag (it is in `cleanup` or has
`halted`), its phase stays in {cleanup, halted} and no counter other
than `cleanups` moves; in particular no further iteration runs. -/
theorem stopped_stays_stopped (s : LoopState) (acts : List PollAction)
    (h : s.phase = .cleanup ∨ s.phase = .halted) :
    ((run s acts).phase = .cleanup ∨ (run s acts).phase = .halted) ∧
    (run s acts).iterations = s.iterations ∧
    (run s acts).waitCalls = s.waitCalls := by
  induction acts generalizing s with
  | nil => exact ⟨h, rfl, rfl⟩
  | cons a acts ih =>
      rw [run_cons]
      cases a with
      | close => exact ih { s with closed := true } h
      | raiseErr =>
          rcases h with h | h <;> simp only [applyAction, h] <;>
            [exact ih s (Or.inl h); exact ih s (Or.inr h)]
      | tick =>
          rcases h with h | h
          · simp only [applyAction, h]
            exact ih { s with phase := .halted } (Or.inr rfl)
          · simp only [applyAction, h]
            exact ih s (Or.inr h)

/-- Invariant of every reachable state of a poller started with
interval `d`: every recorded `wait` call has argument exactly `d`, one
`wait` call is made per completed iteration, the interval never changes,
and `_close_db_stores` has run at most once (exactly once iff the loop
has observed the stop flag, never after a crash). -/
def LoopInv (d : Nat) (s : LoopState) : Prop :=
  s.interval = d ∧
  s.waitCalls.length = s.iterations ∧
  (∀ x ∈ s.waitCalls, x = d) ∧
  ((s.phase = .cleanup ∨ s.phase = .halted) → s.cleanups = 1) ∧
  ((s.phase = .checkFlag ∨ s.phase = .pollOnce ∨ s.phase = .waiting ∨
      s.phase = .crashed) → s.cleanups = 0)

theorem loopInv_init (d : Nat) : LoopInv d (initState d) := by
  refine ⟨rfl, rfl, ?_, ?_, ?_⟩
  · intro x hx; cases hx
  · intro h; rcases h with h | h <;> cases h
  · intro _; rfl

theorem loopInv_step (d : Nat) (s : LoopState) (a : PollAction)
    (h : LoopInv d s) : LoopInv d (applyAction s a) := by
  obtain ⟨hint, hlen, hall, hstop, hrun⟩ := h
  cases a with
  | close => exact ⟨hint, hlen, hall, hstop, hrun⟩
  | raiseErr =>
      by_cases hp : s.phase = .pollOnce
      · simp only [applyAction, hp, if_pos]
        refine ⟨hint, hlen, hall, ?_, ?_⟩
        · intro hc; rcases hc with hc | hc <;> cases hc
        · intro _; exact hrun (Or.inr (Or.inl hp))
      · simp only [applyAction, hp, if_neg, if_false]
        exact ⟨hint, hlen, hall, hstop, hrun⟩
  | tick =>
      cases hp : s.phase with
      | checkFlag =>
          by_cases hc : s.closed = true
          · simp only [applyAction, hp, hc, if_true]
            refine ⟨hint, hlen, hall, ?_, ?_⟩
            · intro _
              have h0 : s.cleanups = 0 := hrun (Or.inl hp)
              show s.cleanups + 1 = 1
              omega
            · intro hcontra
              rcases hcontra with h' | h' | h' | h' <;> cases h'
          · simp only [applyAction, hp, hc, if_false]
            refine ⟨hint, hlen, hall, ?_, ?_⟩
            · intro hcontra; rcases hcontra with h' | h' <;> cases h'
            · intro _; exact hrun (Or.inl hp)
      | pollOnce =>
          simp only [applyAction, hp]
          refine ⟨hint, ?_, ?_, ?_, ?_⟩
          · simp [hlen]
          · intro x hx
            rcases List.mem_append.mp hx with hx | hx
            · exact hall x hx
            · simp only [List.mem_singleton] at hx
              omega
          · intro hcontra; rcases hcontra with h' | h' <;> cases h'
          · intro _; exact hrun (Or.inr (Or.inl hp))
      | waiting =>
          simp only [applyAction, hp]
          refine ⟨hint, hlen, hall, ?_, ?_⟩
          · intro hcontra; rcases hcontra with h' | h' <;> cases h'
          · intro _; exact hrun (Or.inr (Or.inr (Or.inl hp)))
      | cleanup =>
          simp only [applyAction, hp]
          refine ⟨hint, hlen, hall, ?_, ?_⟩
          · intro _; exact hstop (Or.inl hp)
          · intro hcontra
            rcases hcontra with h' | h' | h' | h' <;> cases h'
      | halted =>
          simp only [applyAction, hp]
          exact ⟨hint, hlen, hall, hstop, hrun⟩
      | crashed =>
          simp only [applyAction, hp]
          exact ⟨hint, hlen, hall, hstop, hrun⟩

theorem loopInv_run (d : Nat) (s : LoopState) (acts : List PollAction)
    (h : LoopInv d s) : LoopInv d (run s acts) := by
  induction acts generalizing s with
  | nil => exact h
  | cons a acts ih => exact ih (applyAction s a) (loopInv_step d s a h)

theorem loopInv_reachable (d : Nat) (acts : List PollAction) :
    LoopInv d (run (initState d) acts) :=
  loopInv_run d (initState d) acts (loopInv_init d)

theorem applyAction_close (s : LoopState) :
    applyAction s .close = { s with closed := true } := rfl

/-- The loop enters the `wait` call only straight after `_poll_once`
returned (or stays inside it): the wait is the last thing a cycle does. -/
theorem waiting_only_after_pollOnce (s : LoopState) (a : PollAction)
    (h : (applyAction s a).phase = .waiting) :
    s.phase = .pollOnce ∨ s.phase = .waiting := by
  cases a with
  | close => exact Or.inr h
  | raiseErr =>
      by_cases hp : s.phase = .pollOnce
      · exact Or.inl hp
      · simp only [applyAction, hp, if_false] at h
        exact Or.inr h
  | tick =>
      cases hp : s.phase with
      | checkFlag =>
          by_cases hc : s.closed = true <;>
            simp [applyAction, hp, hc] at h
      | pollOnce => exact Or.inl rfl
      | waiting => simp [applyAction, hp] at h
      | cleanup => simp [applyAction, hp] at h
      | halted => simp [applyAction, hp] at h
      | crashed => simp [applyAction, hp] at h

/-- C1 counterexample.  The claim says an error raised by `_poll_once`
is caught at the iteration boundary inside `_poll` and the loop
proceeds to the next scheduled iteration after the normal wait.  In the
code `_poll` has no `try`/`except`: starting a poller (interval 1) and
letting the first `_poll_once` raise leaves the loop `crashed` with no
completed iteration, no `wait` call and no cleanup, and four further
scheduling opportunities change nothing — the loop has terminated
instead of proceeding. -/
theorem spec_c1_counterexample :
    run (initState 1) [PollAction.tick, PollAction.raiseErr] =
      { phase := .crashed, closed := false, interval := 1,
        iterations := 0, waitCalls := [], cleanups := 0 } ∧
    run (initState 1) [PollAction.tick, PollAction.raiseErr,
        PollAction.tick, PollAction.tick, PollAction.tick, PollAction.tick] =
      { phase := .crashed, closed := false, interval := 1,
        iterations := 0, waitCalls := [], cleanups := 0 } :=
  ⟨rfl, rfl⟩

/-- C1 amended: a `SensorReadError` or `StorageError` raised by
`_poll_once` is NOT caught inside `_poll`; it propagates out of the
loop, which terminates at once — no `wait` for this cycle, no further
iterations ever, and `_close_db_stores` never runs. -/
theorem spec_c1_amended (s : LoopState) (acts : List PollAction)
    (h : s.phase = .pollOnce) :
    (applyAction s .raiseErr).phase = .crashed ∧
    (run (applyAction s .raiseErr) acts).phase = .crashed ∧
    (run (applyAction s .raiseErr) acts).iterations = s.iterations ∧
    (run (applyAction s .raiseErr) acts).waitCalls = s.waitCalls ∧
    (run (applyAction s .raiseErr) acts).cleanups = s.cleanups := by
  have hc : (applyAction s .raiseErr).phase = .crashed := by
    simp [applyAction, h]
  have habs := crashed_absorbing (applyAction s .raiseErr) acts hc
  have heq : applyAction s .raiseErr =
      { s with phase := .crashed } := by simp [applyAction, h]
  refine ⟨hc, habs.1, ?_, ?_, ?_⟩
  · rw [habs.2.1, heq]
  · rw [habs.2.2.1, heq]
  · rw [habs.2.2.2, heq]

theorem spec_c1_amended_witness :
    (⟨Phase.pollOnce, false, 3, 2, [3, 3], 0⟩ : LoopState).phase =
      Phase.pollOnce ∧
    (run (applyAction ⟨Phase.pollOnce, false, 3, 2, [3, 3], 0⟩
        PollAction.raiseErr) [PollAction.tick, PollAction.close,
        PollAction.tick]).iterations = 2 :=
  ⟨rfl,
   (spec_c1_amended ⟨Phase.pollOnce, false, 3, 2, [3, 3], 0⟩
     [PollAction.tick, PollAction.close, PollAction.tick] rfl).2.2.1⟩

/-- C4: the stop protocol of `SensorPollerBase`.

1. `close()` only sets the `threading.Event`: it never moves the loop
   thread, so a stop request is never observed mid-iteration and an
   in-flight `_poll_once` is never interrupted by it.
2. An in-flight `_poll_once` runs to completion on its own next step,
   whether or not the flag is already set.
3. When the loop observes the set flag at the top of the `while`, it
   calls `_close_db_stores` (the cleanup).
4. Once the loop has observed the flag, no further iteration ever runs
   and it only remains in cleanup or terminates.
5. From a fresh start, the cleanup runs at most once, and exactly once
   whenever the loop has terminated normally.
6. The terminated state is terminal. -/
theorem spec_c4_stop_protocol :
    (∀ s : LoopState, applyAction s .close = { s with closed := true }) ∧
    (∀ s : LoopState, s.phase = .pollOnce →
      applyAction s .tick =
        { s with phase := .waiting, iterations := s.iterations + 1,
                 waitCalls := s.waitCalls ++ [s.interval] }) ∧
    (∀ s : LoopState, s.phase = .checkFlag → s.closed = true →
      applyAction s .tick =
        { s with phase := .cleanup, cleanups := s.cleanups + 1 }) ∧
    (∀ (s : LoopState) (acts : List PollAction),
      (s.phase = .cleanup ∨ s.phase = .halted) →
      ((run s acts).phase = .cleanup ∨ (run s acts).phase = .halted) ∧
      (run s acts).iterations = s.iterations) ∧
    (∀ (d : Nat) (acts : List PollAction),
      (run (initState d) acts).cleanups ≤ 1 ∧
      ((run (initState d) acts).phase = .halted →
        (run (initState d) acts).cleanups = 1)) ∧
    (∀ (s : LoopState) (a : PollAction), s.phase = .halted →
      (applyAction s a).phase = .halted) := by
  refine ⟨fun s => rfl, ?_, ?_, ?_, ?_, ?_⟩
  · intro s h
    simp [applyAction, h]
  · intro s h hc
    simp [applyAction, h, hc]
  · intro s acts h
    exact ⟨(stopped_stays_stopped s acts h).1,
           (stopped_stays_stopped s acts h).2.1⟩
  · intro d acts
    have hinv := loopInv_reachable d acts
    obtain ⟨-, -, -, hstop, hrun'⟩ := hinv
    constructor
    · cases hp : (run (initState d) acts).phase with
      | checkFlag => simp [hrun' (Or.inl hp)]
      | pollOnce => simp [hrun' (Or.inr (Or.inl hp))]
      | waiting => simp [hrun' (Or.inr (Or.inr (Or.inl hp)))]
      | cleanup => simp [hstop (Or.inl hp)]
      | halted => simp [hstop (Or.inr hp)]
      | crashed => simp [hrun' (Or.inr (Or.inr (Or.inr hp)))]
    · intro hp
      exact hstop (Or.inr hp)
  · intro s a h
    cases a with
    | close => exact h
    | raiseErr => simp [applyAction, h]
    | tick => simp [applyAction, h]

theorem spec_c4_stop_protocol_witness :
    (⟨Phase.pollOnce, true, 4, 1, [4], 0⟩ : LoopState).phase =
      Phase.pollOnce ∧
    applyAction ⟨Phase.pollOnce, true, 4, 1, [4], 0⟩ PollAction.tick =
      ⟨Phase.waiting, true, 4, 2, [4, 4], 0⟩ ∧
    (run ⟨Phase.cleanup, true, 4, 2, [4, 4], 1⟩
      [PollAction.tick, PollAction.close]).iterations = 2 :=
  ⟨rfl,
   spec_c4_stop_protocol.2.1 ⟨Phase.pollOnce, true, 4, 1, [4], 0⟩ rfl,
   (spec_c4_stop_protocol.2.2.2.1 ⟨Phase.cleanup, true, 4, 2, [4, 4], 1⟩
     [PollAction.tick, PollAction.close] (Or.inl rfl)).2⟩

/-- C5 counterexample.  The claim says that once `close()` has been
called, the loop observes the stop flag as soon as the current
`_poll_once` completes and terminates without blocking for an
additional full poll-interval wait.  Concretely: the flag is already
set (`closed = true`) while `_poll_once` is in flight (interval 7).
When the iteration completes, the loop does not observe the flag: it
first calls `wait(7)` (the waitCalls log grows by the full interval)
and only two steps later reaches the cleanup. -/
theorem spec_c5_counterexample :
    run ⟨Phase.pollOnce, true, 7, 0, [], 0⟩ [PollAction.tick] =
      ⟨Phase.waiting, true, 7, 1, [7], 0⟩ ∧
    run ⟨Phase.pollOnce, true, 7, 0, [], 0⟩
        [PollAction.tick, PollAction.tick] =
      ⟨Phase.checkFlag, true, 7, 1, [7], 0⟩ ∧
    run ⟨Phase.pollOnce, true, 7, 0, [], 0⟩
        [PollAction.tick, PollAction.tick, PollAction.tick] =
      ⟨Phase.cleanup, true, 7, 1, [7], 1⟩ :=
  ⟨rfl, rfl, rfl⟩

/-- C5 amended: after `close()` is called during an in-flight
iteration, shutdown becomes effective only after that iteration
completes AND one further full `wait(poll_interval)`, because `_poll`
re-tests the flag only at the top of the `while`, after the wait.  The
loop then observes the flag, cleans up and terminates with no further
iteration. -/
theorem spec_c5_amended (s : LoopState) (h1 : s.phase = .pollOnce)
    (h2 : s.closed = true) :
    run s [PollAction.tick] =
      { s with phase := .waiting, iterations := s.iterations + 1,
               waitCalls := s.waitCalls ++ [s.interval] } ∧
    run s [PollAction.tick, PollAction.tick, PollAction.tick,
           PollAction.tick] =
      { s with phase := .halted, iterations := s.iterations + 1,
               waitCalls := s.waitCalls ++ [s.interval],
               cleanups := s.cleanups + 1 } := by
  constructor
  · simp [run, applyAction, h1]
  · simp [run, applyAction, h1, h2]

theorem spec_c5_amended_witness :
    (⟨Phase.pollOnce, true, 7, 0, [], 0⟩ : LoopState).phase =
      Phase.pollOnce ∧
    (⟨Phase.pollOnce, true, 7, 0, [], 0⟩ : LoopState).closed = true ∧
    run ⟨Phase.pollOnce, true, 7, 0, [], 0⟩
        [PollAction.tick, PollAction.tick, PollAction.tick,
         PollAction.tick] =
      ⟨Phase.halted, true, 7, 1, [7], 1⟩ :=
  ⟨rfl, rfl,
   (spec_c5_amended ⟨Phase.pollOnce, true, 7, 0, [], 0⟩ rfl rfl).2⟩

/-- C6: `close()` only sets the `threading.Event`, and `Event.set` on
an already-set event is a no-op, so a second `close()` — or a
`close()` on a poller whose loop already stopped — changes nothing
about the poller's state; being a total function of the state, it
raises nothing. -/
theorem spec_c6_close_idempotent (s : LoopState) :
    applyAction (applyAction s .close) .close = applyAction s .close ∧
    (applyAction s .close).phase = s.phase ∧
    (applyAction s .close).iterations = s.iterations ∧
    (applyAction s .close).cleanups = s.cleanups ∧
    (s.closed = true → applyAction s .close = s) := by
  refine ⟨rfl, rfl, rfl, rfl, fun h => ?_⟩
  cases s
  simp_all [applyAction]

theorem spec_c6_close_idempotent_witness :
    (⟨Phase.halted, true, 5, 3, [5, 5, 5], 1⟩ : LoopState).closed = true ∧
    applyAction ⟨Phase.halted, true, 5, 3, [5, 5, 5], 1⟩ PollAction.close =
      ⟨Phase.halted, true, 5, 3, [5, 5, 5], 1⟩ :=
  ⟨rfl,
   (spec_c6_close_idempotent ⟨Phase.halted, true, 5, 3, [5, 5, 5], 1⟩).2.2.2.2
     rfl⟩

/-- C8: in every state reachable from a fresh start with interval `d`,
the loop has made exactly one `wait` call per completed iteration and
every `wait` call carried exactly the argument `d`; moreover the loop
only ever enters the `wait` call directly after `_poll_once` completes,
so the wait follows the iteration's sampling-and-store work. -/
theorem spec_c8_wait_discipline :
    (∀ (d : Nat) (acts : List PollAction),
      (run (initState d) acts).waitCalls.length =
        (run (initState d) acts).iterations ∧
      (∀ x ∈ (run (initState d) acts).waitCalls, x = d)) ∧
    (∀ (s : LoopState) (a : PollAction),
      (applyAction s a).phase = .waiting →
      s.phase = .pollOnce ∨ s.phase = .waiting) := by
  constructor
  · intro d acts
    have hinv := loopInv_reachable d acts
    exact ⟨hinv.2.1, hinv.2.2.1⟩
  · exact waiting_only_after_pollOnce

theorem spec_c8_wait_discipline_witness :
    (7 : Nat) ∈ (run (initState 7)
      [PollAction.tick, PollAction.tick]).waitCalls ∧
    (7 : Nat) = 7 ∧
    (applyAction ⟨Phase.pollOnce, false, 7, 0, [], 0⟩
      PollAction.tick).phase = Phase.waiting ∧
    ((⟨Phase.pollOnce, false, 7, 0, [], 0⟩ : LoopState).phase =
        Phase.pollOnce ∨
      (⟨Phase.pollOnce, false, 7, 0, [], 0⟩ : LoopState).phase =
        Phase.waiting) :=
  ⟨by decide, (spec_c8_wait_discipline.1 7
      [PollAction.tick, PollAction.tick]).2 7 (by decide), rfl,
   spec_c8_wait_discipline.2 ⟨Phase.pollOnce, false, 7, 0, [], 0⟩
     PollAction.tick rfl⟩

/-- C2, the failing input.  `WateringEventPoller.__init__` stores the
watering-event store in `self._watering_event_store`, but the insert
line of `_poll_once` reads `self.watering_event_store` (no leading
underscore), an attribute that is never assigned.  With a stored
moisture sample present and a pump that dispenses 200 mL, the body
calls `pump_if_needed` with the sample and then raises
`AttributeError` instead of inserting the `WateringEventRecord`.  The
other two branches behave as claimed: volume 0 inserts nothing and
raises nothing, and an absent sample makes no pump call. -/
theorem spec_c2_watering_bug :
    WateringEventPoller.poll_once
        (some ⟨⟨2016, 7, 23, 10, 51, 9, 928000, 0⟩, (100 : ℚ)⟩)
        (fun _ => (200 : ℚ)) ⟨2016, 7, 23, 11, 5, 12, 248000, 0⟩ =
      ([WateringCall.pump_if_needed
          ⟨⟨2016, 7, 23, 10, 51, 9, 928000, 0⟩, (100 : ℚ)⟩],
       some (PyError.attributeError "watering_event_store")) ∧
    WateringEventPoller.poll_once (α := ℚ) none
        (fun _ => (200 : ℚ)) ⟨2016, 7, 23, 11, 5, 12, 248000, 0⟩ =
      ([], none) ∧
    WateringEventPoller.poll_once
        (some ⟨⟨2016, 7, 23, 10, 51, 9, 928000, 0⟩, (500 : ℚ)⟩)
        (fun _ => (0 : ℚ)) ⟨2016, 7, 23, 11, 5, 12, 248000, 0⟩ =
      ([WateringCall.pump_if_needed
          ⟨⟨2016, 7, 23, 10, 51, 9, 928000, 0⟩, (500 : ℚ)⟩], none) := by
  refine ⟨?_, rfl, ?_⟩ <;> decide

/-- C9: one iteration of `TemperaturePoller` with the sensor reading
21.0 and the clock at instant `T` performs exactly one store
operation: `insert(TemperatureRecord(T, 21.0))`. -/
theorem spec_c9_temperature_iteration (T : Timestamp) :
    TemperaturePoller.poll_once (21 : ℚ) T =
      [TempStoreOp.insert ⟨T, (21 : ℚ)⟩] ∧
    (TemperaturePoller.poll_once (21 : ℚ) T).length = 1 :=
  ⟨rfl, rfl⟩

/-- C10: `get_humidity_level` returns the driver's humidity value iff
`error_code = 0`, raises `MissingDataError` iff the code is 1,
`IncorrectCRCError` iff the code is 2, and `ValueError` for every other
nonzero code; a value is never produced together with or instead of a
signalled error. -/
theorem spec_c10_humidity_dispatch (α : Type) (r : Dht11Result α) :
    (HumiditySensor.get_humidity_level r = Except.ok r.humidity ↔
      r.error_code = 0) ∧
    (∀ v, HumiditySensor.get_humidity_level r = Except.ok v →
      v = r.humidity ∧ r.error_code = 0) ∧
    (HumiditySensor.get_humidity_level r =
        Except.error HumidityReadError.missingDataError ↔
      r.error_code = 1) ∧
    (HumiditySensor.get_humidity_level r =
        Except.error HumidityReadError.incorrectCRCError ↔
      r.error_code = 2) ∧
    (r.error_code ≠ 0 → r.error_code ≠ 1 → r.error_code ≠ 2 →
      HumiditySensor.get_humidity_level r =
        Except.error (HumidityReadError.valueError r.error_code)) := by
  unfold HumiditySensor.get_humidity_level
  split_ifs with h0 h1 h2 <;> simp_all

theorem spec_c10_humidity_dispatch_witness :
    ((37 : ℚ) = (37 : ℚ) ∧ (0 : Int) = 0) ∧
    ((5 : Int) ≠ 0 ∧ (5 : Int) ≠ 1 ∧ (5 : Int) ≠ 2) ∧
    HumiditySensor.get_humidity_level (⟨5, (50 : ℚ)⟩ : Dht11Result ℚ) =
      Except.error (HumidityReadError.valueError 5) :=
  ⟨(spec_c10_humidity_dispatch ℚ ⟨0, 37⟩).2.1 37 (by rfl),
   ⟨by decide, by decide, by decide⟩,
   (spec_c10_humidity_dispatch ℚ ⟨5, 50⟩).2.2.2.2
     (by decide) (by decide) (by decide)⟩

/-! ## Round trip: decoding a serialized timestamp -/

theorem dec2_pad2 (n : Nat) : dec2 (48 + n / 10) (48 + n % 10) = n := by
  unfold dec2; omega

theorem dec4_pad4 (n : Nat) :
    dec4 (48 + n / 1000) (48 + n / 100 % 10) (48 + n / 10 % 10)
      (48 + n % 10) = n := by
  unfold dec4; omega

theorem dec6_pad6 (n : Nat) :
    dec6 (48 + n / 100000) (48 + n / 10000 % 10) (48 + n / 1000 % 10)
      (48 + n / 100 % 10) (48 + n / 10 % 10) (48 + n % 10) = n := by
  unfold dec6; omega

theorem decodeOffset_offsetBytes (off : Int) :
    decodeOffset (offsetBytes off) = some off := by
  by_cases hneg : off < 0
  · simp only [offsetBytes, hneg, if_true, pad2, List.cons_append,
      List.nil_append, decodeOffset]
    norm_num
    simp only [dec2]
    omega
  · simp only [offsetBytes, hneg, if_false, pad2, List.cons_append,
      List.nil_append, decodeOffset]
    norm_num
    simp only [dec2]
    omega

theorem decodeTail_frac_offset (us : Nat) (off : Int) :
    decodeTail (fracBytes us ++ offsetBytes off) = some (us, off) := by
  have hoff := decodeOffset_offsetBytes off
  by_cases h0 : us = 0
  · subst h0
    simp only [fracBytes, if_pos rfl, List.nil_append]
    by_cases hneg : off < 0
    · simp only [offsetBytes, hneg, if_true, pad2, List.cons_append,
        List.nil_append, decodeTail, decodeOffset]
      norm_num
      simp only [dec2]
      omega
    · simp only [offsetBytes, hneg, if_false, pad2, List.cons_append,
        List.nil_append, decodeTail, decodeOffset]
      norm_num
      simp only [dec2]
      omega
  · rw [show fracBytes us = 46 :: pad6 us from by simp [fracBytes, h0]]
    simp only [pad6, List.cons_append, List.nil_append, decodeTail,
      if_pos rfl]
    norm_num
    rw [hoff, dec6_pad6]
    exact ⟨rfl, rfl⟩

/-- Round trip of `_serialize_timestamp` followed by the parse
performed in `_do_get`: decoding recovers all fields exactly
(microseconds included). -/
theorem decode_serialize (t : Timestamp) :
    decode_timestamp (serialize_timestamp t) = some t := by
  obtain ⟨y, mo, d, hh, mi, ss, us, off⟩ := t
  simp only [serialize_timestamp, pad4, pad2, List.cons_append,
    List.nil_append, List.append_assoc]
  simp only [decode_timestamp, and_self, if_true, if_pos rfl]
  norm_num [decodeTail_frac_offset, dec4_pad4, dec2_pad2]

/-! ## Lexicographic comparison of serialized timestamps -/

theorem lexLt_irrefl (l : List Nat) : lexLt l l = false := by
  induction l with
  | nil => rfl
  | cons a as ih => simp [lexLt, ih]

theorem lexLt_append_same (xs as bs : List Nat) :
    lexLt (xs ++ as) (xs ++ bs) = lexLt as bs := by
  induction xs with
  | nil => rfl
  | cons x xs ih => simp [lexLt, ih]

theorem lexLt_append_of_ne (xs ys as bs : List Nat)
    (hlen : xs.length = ys.length) (hne : xs ≠ ys) :
    lexLt (xs ++ as) (ys ++ bs) = lexLt xs ys := by
  induction xs generalizing ys with
  | nil =>
      cases ys with
      | nil => exact absurd rfl hne
      | cons y ys => simp at hlen
  | cons x xs ih =>
      cases ys with
      | nil => simp at hlen
      | cons y ys =>
          simp only [List.length_cons, Nat.add_right_cancel_iff] at hlen
          by_cases hxy : x < y
          · simp [lexLt, hxy]
          · by_cases heq : x = y
            · subst heq
              have hne' : xs ≠ ys := by
                intro hcontra; exact hne (by rw [hcontra])
              simp only [List.cons_append, lexLt, lt_irrefl, if_false,
                if_pos rfl]
              exact ih ys hlen hne'
            · simp [lexLt, hxy, heq]

theorem pad2_injective (a b : Nat) : pad2 a = pad2 b ↔ a = b := by
  simp only [pad2, List.cons.injEq, and_true]
  omega

theorem pad4_injective (a b : Nat) : pad4 a = pad4 b ↔ a = b := by
  simp only [pad4, List.cons.injEq, and_true]
  omega

theorem pad6_injective (a b : Nat) : pad6 a = pad6 b ↔ a = b := by
  simp only [pad6, List.cons.injEq, and_true]
  omega

theorem lexLt_cons (x y : Nat) (xs ys : List Nat) :
    lexLt (x :: xs) (y :: ys) = true ↔
      x < y ∨ (x = y ∧ lexLt xs ys = true) := by
  simp only [lexLt]
  split_ifs <;> simp_all

theorem lexLt_nil_iff : (lexLt [] [] = true) ↔ False := by simp [lexLt]

theorem lexLt_pad2 (a b : Nat) : lexLt (pad2 a) (pad2 b) = true ↔ a < b := by
  simp only [pad2, lexLt_cons, lexLt_nil_iff, and_false, or_false]
  omega

theorem pad4_eq_pads (n : Nat) : pad4 n = pad2 (n / 100) ++ pad2 (n % 100) := by
  simp only [pad4, pad2, List.cons_append, List.nil_append,
    List.cons.injEq, and_true]
  refine ⟨by omega, trivial, by omega, by omega⟩

theorem pad6_eq_pads (n : Nat) :
    pad6 n = pad2 (n / 10000) ++ (pad2 (n / 100 % 100) ++ pad2 (n % 100)) := by
  simp only [pad6, pad2, List.cons_append, List.nil_append,
    List.cons.injEq, and_true]
  refine ⟨by omega, trivial, by omega, by omega, by omega, by omega⟩

theorem lexLt_pad4 (a b : Nat) : lexLt (pad4 a) (pad4 b) = true ↔ a < b := by
  rw [pad4_eq_pads, pad4_eq_pads]
  by_cases h : a / 100 = b / 100
  · rw [h, lexLt_append_same, lexLt_pad2]
    omega
  · rw [lexLt_append_of_ne _ _ _ _ (by simp [pad2])
      (fun hc => h ((pad2_injective _ _).mp hc)), lexLt_pad2]
    omega

theorem lexLt_pad6 (a b : Nat) : lexLt (pad6 a) (pad6 b) = true ↔ a < b := by
  rw [pad6_eq_pads, pad6_eq_pads]
  by_cases h1 : a / 10000 = b / 10000
  · rw [h1, lexLt_append_same]
    by_cases h2 : a / 100 % 100 = b / 100 % 100
    · rw [h2, lexLt_append_same, lexLt_pad2]
      omega
    · rw [lexLt_append_of_ne _ _ _ _ (by simp [pad2])
        (fun hc => h2 ((pad2_injective _ _).mp hc)), lexLt_pad2]
      omega
  · rw [lexLt_append_of_ne _ _ _ _ (by simp [pad2])
      (fun hc => h1 ((pad2_injective _ _).mp hc)), lexLt_pad2]
    omega

/-- For two serialized timestamps with the same UTC offset, bytewise
text order agrees with the lexicographic field order: the optional
`.ffffff` omission is harmless because the bytes of `+`, `-` (43, 45)
sort below `.` (46). -/
theorem lexLt_serialize_iff_keyLt (t1 t2 : Timestamp)
    (hoff : t1.offsetMinutes = t2.offsetMinutes) :
    (lexLt (serialize_timestamp t1) (serialize_timestamp t2) = true ↔
      keyLt t1 t2) := by
  simp only [serialize_timestamp, hoff]
  by_cases hy : t1.year = t2.year
  case neg =>
    rw [lexLt_append_of_ne _ _ _ _ (by simp [pad4])
      (fun hc => hy ((pad4_injective _ _).mp hc)), lexLt_pad4]
    unfold keyLt; omega
  rw [hy, lexLt_append_same, lexLt_append_same]
  by_cases hm : t1.month = t2.month
  case neg =>
    rw [lexLt_append_of_ne _ _ _ _ (by simp [pad2])
      (fun hc => hm ((pad2_injective _ _).mp hc)), lexLt_pad2]
    unfold keyLt; omega
  rw [hm, lexLt_append_same, lexLt_append_same]
  by_cases hd : t1.day = t2.day
  case neg =>
    rw [lexLt_append_of_ne _ _ _ _ (by simp [pad2])
      (fun hc => hd ((pad2_injective _ _).mp hc)), lexLt_pad2]
    unfold keyLt; omega
  rw [hd, lexLt_append_same, lexLt_append_same]
  by_cases hh : t1.hour = t2.hour
  case neg =>
    rw [lexLt_append_of_ne _ _ _ _ (by simp [pad2])
      (fun hc => hh ((pad2_injective _ _).mp hc)), lexLt_pad2]
    unfold keyLt; omega
  rw [hh, lexLt_append_same, lexLt_append_same]
  by_cases hmi : t1.minute = t2.minute
  case neg =>
    rw [lexLt_append_of_ne _ _ _ _ (by simp [pad2])
      (fun hc => hmi ((pad2_injective _ _).mp hc)), lexLt_pad2]
    unfold keyLt; omega
  rw [hmi, lexLt_append_same, lexLt_append_same]
  by_cases hs : t1.second = t2.second
  case neg =>
    rw [lexLt_append_of_ne _ _ _ _ (by simp [pad2])
      (fun hc => hs ((pad2_injective _ _).mp hc)), lexLt_pad2]
    unfold keyLt; omega
  rw [hs, lexLt_append_same]
  by_cases hu1 : t1.microsecond = 0 <;> by_cases hu2 : t2.microsecond = 0
  · simp only [show fracBytes t1.microsecond = [] from by
        simp [fracBytes, hu1],
      show fracBytes t2.microsecond = [] from by simp [fracBytes, hu2],
      List.nil_append, lexLt_irrefl]
    constructor
    · intro h; exact absurd h (by simp)
    · intro hk; exfalso; unfold keyLt at hk; omega
  · simp only [show fracBytes t1.microsecond = [] from by
        simp [fracBytes, hu1],
      show fracBytes t2.microsecond = 46 :: pad6 t2.microsecond from by
        simp [fracBytes, hu2], List.nil_append, List.cons_append]
    by_cases hneg : t2.offsetMinutes < 0
    · rw [show offsetBytes t2.offsetMinutes = 45 ::
          (pad2 (t2.offsetMinutes.natAbs / 60) ++
            ([58] ++ pad2 (t2.offsetMinutes.natAbs % 60))) from by
          simp [offsetBytes, hneg, List.cons_append]]
      rw [lexLt_cons]
      norm_num
      unfold keyLt; omega
    · rw [show offsetBytes t2.offsetMinutes = 43 ::
          (pad2 (t2.offsetMinutes.natAbs / 60) ++
            ([58] ++ pad2 (t2.offsetMinutes.natAbs % 60))) from by
          simp [offsetBytes, hneg, List.cons_append]]
      rw [lexLt_cons]
      norm_num
      unfold keyLt; omega
  · simp only [show fracBytes t2.microsecond = [] from by
        simp [fracBytes, hu2],
      show fracBytes t1.microsecond = 46 :: pad6 t1.microsecond from by
        simp [fracBytes, hu1], List.nil_append, List.cons_append]
    by_cases hneg : t2.offsetMinutes < 0
    · rw [show offsetBytes t2.offsetMinutes = 45 ::
          (pad2 (t2.offsetMinutes.natAbs / 60) ++
            ([58] ++ pad2 (t2.offsetMinutes.natAbs % 60))) from by
          simp [offsetBytes, hneg, List.cons_append]]
      rw [lexLt_cons]
      norm_num
      unfold keyLt; omega
    · rw [show offsetBytes t2.offsetMinutes = 43 ::
          (pad2 (t2.offsetMinutes.natAbs / 60) ++
            ([58] ++ pad2 (t2.offsetMinutes.natAbs % 60))) from by
          simp [offsetBytes, hneg, List.cons_append]]
      rw [lexLt_cons]
      norm_num
      unfold keyLt; omega
  · simp only [show fracBytes t1.microsecond = 46 :: pad6 t1.microsecond
        from by simp [fracBytes, hu1],
      show fracBytes t2.microsecond = 46 :: pad6 t2.microsecond from by
        simp [fracBytes, hu2], List.cons_append]
    rw [lexLt_cons]
    norm_num
    by_cases huv : t1.microsecond = t2.microsecond
    · rw [huv, lexLt_append_same, lexLt_irrefl]
      constructor
      · intro h; exact absurd h (by simp)
      · intro hk; exfalso; unfold keyLt at hk; omega
    · rw [lexLt_append_of_ne _ _ _ _ (by simp [pad6])
        (fun hc => huv ((pad6_injective _ _).mp hc)), lexLt_pad6]
      unfold keyLt; omega

/-! ## Chronological order vs. field order -/

theorem isLeapYear_iff (y : Nat) :
    isLeapYear y = true ↔ ((y % 4 = 0 ∧ ¬ y % 100 = 0) ∨ y % 400 = 0) := by
  simp [isLeapYear, Bool.or_eq_true, Bool.and_eq_true, beq_iff_eq,
    bne_iff_ne, ne_eq]

theorem daysBeforeMonth_add_day_le (y m d : Nat) (h1 : 1 ≤ m) (h2 : m ≤ 12)
    (hd : d ≤ daysInMonth y m) :
    daysBeforeMonth y m + d ≤ 365 + (if isLeapYear y then 1 else 0) := by
  interval_cases m <;>
    simp [daysBeforeMonth, daysInMonth] at * <;>
    split_ifs at * <;> omega

theorem daysBeforeMonth_step (y m : Nat) (h1 : 1 ≤ m) (h2 : m ≤ 11) :
    daysBeforeMonth y (m + 1) = daysBeforeMonth y m + daysInMonth y m := by
  interval_cases m <;>
    simp [daysBeforeMonth, daysInMonth] <;>
    split_ifs <;> omega

theorem daysBeforeMonth_block_le (y m1 m2 : Nat) (h1 : 1 ≤ m1)
    (hlt : m1 < m2) (h2 : m2 ≤ 12) :
    daysBeforeMonth y m1 + daysInMonth y m1 ≤ daysBeforeMonth y m2 := by
  induction m2 with
  | zero => omega
  | succ n ih =>
      by_cases heq : m1 = n
      · subst heq
        rw [daysBeforeMonth_step y m1 h1 (by omega)]
      · have h' := ih (by omega) (by omega)
        rw [daysBeforeMonth_step y n (by omega) (by omega)]
        omega

theorem daysBeforeMonth_mono (y m1 m2 d1 d2 : Nat) (h1 : 1 ≤ m1)
    (hlt : m1 < m2) (h2 : m2 ≤ 12) (hd1 : d1 ≤ daysInMonth y m1)
    (hd2 : 1 ≤ d2) :
    daysBeforeMonth y m1 + d1 < daysBeforeMonth y m2 + d2 := by
  have := daysBeforeMonth_block_le y m1 m2 h1 hlt h2
  omega

set_option maxHeartbeats 1000000 in
theorem daysBeforeYear_succ (y : Nat) (h : 1 ≤ y) :
    daysBeforeYear (y + 1) =
      daysBeforeYear y + 365 + (if isLeapYear y then 1 else 0) := by
  unfold daysBeforeYear
  split_ifs with hl
  · rw [isLeapYear_iff] at hl
    omega
  · rw [isLeapYear_iff] at hl
    push_neg at hl
    omega

theorem daysBeforeYear_le_succ (y : Nat) :
    daysBeforeYear y ≤ daysBeforeYear (y + 1) := by
  cases y with
  | zero => simp [daysBeforeYear]
  | succ k =>
      rw [daysBeforeYear_succ (k + 1) (by omega)]
      omega

theorem daysBeforeYear_mono (y1 y2 : Nat) (h : y1 ≤ y2) :
    daysBeforeYear y1 ≤ daysBeforeYear y2 := by
  induction y2 with
  | zero =>
      have : y1 = 0 := by omega
      simp [this]
  | succ n ih =>
      by_cases heq : y1 = n + 1
      · simp [heq]
      · exact le_trans (ih (by omega)) (daysBeforeYear_le_succ n)

/-- Strict monotonicity of `toordinal` in the lexicographic date
order, on valid dates. -/
theorem dayNumber_strict_mono (y1 m1 d1 y2 m2 d2 : Nat)
    (hy1 : 1 ≤ y1) (hm1a : 1 ≤ m1) (hm1b : m1 ≤ 12)
    (_hd1a : 1 ≤ d1) (hd1b : d1 ≤ daysInMonth y1 m1)
    (hm2a : 1 ≤ m2) (hm2b : m2 ≤ 12) (hd2a : 1 ≤ d2)
    (hlt : y1 < y2 ∨ (y1 = y2 ∧ (m1 < m2 ∨ (m1 = m2 ∧ d1 < d2)))) :
    dayNumber y1 m1 d1 < dayNumber y2 m2 d2 := by
  rcases hlt with hy | ⟨hy, hm | ⟨hm, hd⟩⟩
  · have hbound := daysBeforeMonth_add_day_le y1 m1 d1 hm1a hm1b hd1b
    have hsucc := daysBeforeYear_succ y1 hy1
    have hmono := daysBeforeYear_mono (y1 + 1) y2 hy
    unfold dayNumber
    have hpos : 0 ≤ daysBeforeMonth y2 m2 := Nat.zero_le _
    omega
  · subst hy
    have := daysBeforeMonth_mono y1 m1 m2 d1 d2 hm1a hm hm2b hd1b hd2a
    unfold dayNumber
    omega
  · subst hy; subst hm
    unfold dayNumber
    omega

/-- On valid timestamps with equal UTC offsets, the field order is
strictly reflected in the instant. -/
theorem keyLt_toEpochMicro_lt (t1 t2 : Timestamp) (h1 : ValidTimestamp t1)
    (h2 : ValidTimestamp t2) (hoff : t1.offsetMinutes = t2.offsetMinutes)
    (hk : keyLt t1 t2) : toEpochMicro t1 < toEpochMicro t2 := by
  obtain ⟨h1a, h1b, h1c, h1d, h1e, h1f, h1g, h1h, h1i, h1j, -, -⟩ := h1
  obtain ⟨h2a, h2b, h2c, h2d, h2e, h2f, h2g, h2h, h2i, h2j, -, -⟩ := h2
  unfold keyLt at hk
  unfold toEpochMicro
  rw [hoff]
  rcases hk with hy | ⟨hy, hm | ⟨hm, hd | ⟨hd, hrest⟩⟩⟩
  · have hD := dayNumber_strict_mono t1.year t1.month t1.day t2.year
      t2.month t2.day h1a h1c h1d h1e h1f h2c h2d h2e (Or.inl hy)
    omega
  · have hD := dayNumber_strict_mono t1.year t1.month t1.day t2.year
      t2.month t2.day h1a h1c h1d h1e h1f h2c h2d h2e
      (Or.inr ⟨hy, Or.inl hm⟩)
    omega
  · have hD := dayNumber_strict_mono t1.year t1.month t1.day t2.year
      t2.month t2.day h1a h1c h1d h1e h1f h2c h2d h2e
      (Or.inr ⟨hy, Or.inr ⟨hm, hd⟩⟩)
    omega
  · rw [hy, hm, hd]
    omega

/-- On valid timestamps with equal UTC offsets, the field order IS the
chronological order of the denoted instants. -/
theorem keyLt_iff_toEpochMicro (t1 t2 : Timestamp) (h1 : ValidTimestamp t1)
    (h2 : ValidTimestamp t2) (hoff : t1.offsetMinutes = t2.offsetMinutes) :
    keyLt t1 t2 ↔ toEpochMicro t1 < toEpochMicro t2 := by
  constructor
  · exact keyLt_toEpochMicro_lt t1 t2 h1 h2 hoff
  · intro hlt
    by_contra hnk
    have tri : keyLt t1 t2 ∨
        (t1.year = t2.year ∧ t1.month = t2.month ∧ t1.day = t2.day ∧
          t1.hour = t2.hour ∧ t1.minute = t2.minute ∧
          t1.second = t2.second ∧ t1.microsecond = t2.microsecond) ∨
        keyLt t2 t1 := by
      unfold keyLt; omega
    rcases tri with h | h | h
    · exact hnk h
    · obtain ⟨e1, e2, e3, e4, e5, e6, e7⟩ := h
      have heq : toEpochMicro t1 = toEpochMicro t2 := by
        unfold toEpochMicro
        rw [e1, e2, e3, e4, e5, e6, e7, hoff]
      omega
    · have := keyLt_toEpochMicro_lt t2 t1 h2 h1 hoff.symm h
      omega

/-! ## Claims about the stores -/

/-- C3: on the append-only soil-moisture table, `get_latest` returns
none when the table is empty; after one insert, exactly that record;
after any sequence of inserts, the most recently inserted record.  The
concrete final conjunct inserts value 300 and then value 100 (at a
later instant): `get_latest` returns the 100-record — the latest
insertion, not the numerically largest value. -/
theorem spec_c3_get_latest :
    (∀ (α : Type), SoilMoistureStore.get_latest ([] : DbTable α) = none) ∧
    (∀ (α : Type) (r : SoilMoistureRecord α),
      SoilMoistureStore.get_latest (SoilMoistureStore.insert [] r) =
        some (some r.timestamp, r.soil_moisture)) ∧
    (∀ (α : Type) (tbl : DbTable α) (r : SoilMoistureRecord α),
      SoilMoistureStore.get_latest (SoilMoistureStore.insert tbl r) =
        some (some r.timestamp, r.soil_moisture)) ∧
    SoilMoistureStore.get_latest
        (SoilMoistureStore.insert
          (SoilMoistureStore.insert ([] : DbTable Int)
            ⟨⟨2016, 7, 23, 10, 51, 9, 928000, 0⟩, 300⟩)
          ⟨⟨2016, 7, 23, 11, 5, 12, 248000, 0⟩, 100⟩) =
      some (some ⟨2016, 7, 23, 11, 5, 12, 248000, 0⟩, 100) := by
  have hlatest : ∀ (α : Type) (tbl : DbTable α) (r : SoilMoistureRecord α),
      SoilMoistureStore.get_latest (SoilMoistureStore.insert tbl r) =
        some (some r.timestamp, r.soil_moisture) := by
    intro α tbl r
    simp [SoilMoistureStore.get_latest, SoilMoistureStore.insert, db_insert,
      List.getLast?_concat, decode_serialize]
  refine ⟨fun α => rfl, fun α r => hlatest α [] r, hlatest, ?_⟩
  rw [hlatest]

/-- C7 counterexample.  Two valid timezone-aware timestamps with
different UTC offsets: `2016-07-23T12:00:00+02:00` denotes 10:00 UTC
and `2016-07-23T11:00:00+00:00` denotes 11:00 UTC, so the first is
chronologically earlier — yet its serialized text sorts lexically
AFTER the other.  Lexical order of the stored strings does not coincide
with chronological order of the instants. -/
theorem spec_c7_counterexample :
    ValidTimestamp ⟨2016, 7, 23, 12, 0, 0, 0, 120⟩ ∧
    ValidTimestamp ⟨2016, 7, 23, 11, 0, 0, 0, 0⟩ ∧
    toEpochMicro ⟨2016, 7, 23, 12, 0, 0, 0, 120⟩ <
      toEpochMicro ⟨2016, 7, 23, 11, 0, 0, 0, 0⟩ ∧
    lexLt (serialize_timestamp ⟨2016, 7, 23, 12, 0, 0, 0, 120⟩)
      (serialize_timestamp ⟨2016, 7, 23, 11, 0, 0, 0, 0⟩) = false ∧
    lexLt (serialize_timestamp ⟨2016, 7, 23, 11, 0, 0, 0, 0⟩)
      (serialize_timestamp ⟨2016, 7, 23, 12, 0, 0, 0, 120⟩) = true := by
  refine ⟨by decide, by decide, by decide, by decide, by decide⟩

/-- C7 amended: (round trip) for every store kind (the five store
classes share `_do_insert`/`_do_get`), inserting a record and reading
back yields the original timestamp (exactly, microseconds included) and
the original value; (sortedness) timestamps are stored as ISO-8601 text
whose lexical (bytewise) order coincides with the chronological order
of the instants for timestamps with EQUAL UTC offsets — the
coincidence does not extend across different offsets
(`spec_c7_counterexample`). -/
theorem spec_c7_roundtrip_and_sorted :
    (∀ (α : Type) (tbl : DbTable α) (t : Timestamp) (v : α),
      db_get (db_insert tbl t v) = db_get tbl ++ [(some t, v)]) ∧
    (∀ t1 t2 : Timestamp, ValidTimestamp t1 → ValidTimestamp t2 →
      t1.offsetMinutes = t2.offsetMinutes →
      (lexLt (serialize_timestamp t1) (serialize_timestamp t2) = true ↔
        toEpochMicro t1 < toEpochMicro t2)) := by
  constructor
  · intro α tbl t v
    simp [db_get, db_insert, decode_serialize]
  · intro t1 t2 h1 h2 hoff
    rw [lexLt_serialize_iff_keyLt t1 t2 hoff]
    exact keyLt_iff_toEpochMicro t1 t2 h1 h2 hoff

theorem spec_c7_roundtrip_and_sorted_witness :
    ValidTimestamp ⟨2016, 7, 23, 10, 51, 9, 928000, 0⟩ ∧
    ValidTimestamp ⟨2016, 7, 23, 11, 5, 12, 0, 0⟩ ∧
    (lexLt (serialize_timestamp ⟨2016, 7, 23, 10, 51, 9, 928000, 0⟩)
        (serialize_timestamp ⟨2016, 7, 23, 11, 5, 12, 0, 0⟩) = true ↔
      toEpochMicro ⟨2016, 7, 23, 10, 51, 9, 928000, 0⟩ <
        toEpochMicro ⟨2016, 7, 23, 11, 5, 12, 0, 0⟩) :=
  ⟨by decide, by decide,
   spec_c7_roundtrip_and_sorted.2 ⟨2016, 7, 23, 10, 51, 9, 928000, 0⟩
     ⟨2016, 7, 23, 11, 5, 12, 0, 0⟩ (by decide) (by decide) rfl⟩
